import Mathlib

/-
Verification of the snapshot / lifecycle / export core of the lxd daemon.

The Go source is embedded shallowly:
- strings are Lean String values; all names handled here are ASCII, so the
  byte-oriented Go operations (len, slicing, SUBSTR, memcmp collation)
  coincide with the character-oriented helpers below;
- database and runtime calls are abstracted by explicit success flags or
  result lists passed as parameters;
- stateful loops become structural recursion producing explicit event
  traces, so ordering properties of the original control flow are visible
  in the trace.
-/

set_option autoImplicit false

/-! Byte-level string helpers mirroring the Go / SQLite primitives. -/

/-- Character-list slice mirroring Go byte slicing s[:n] (ASCII inputs). -/
def strTake (s : String) (n : Nat) : String :=
  String.mk (s.data.take n)

/-- Character-list slice mirroring Go byte slicing s[n:] (ASCII inputs). -/
def strDrop (s : String) (n : Nat) : String :=
  String.mk (s.data.drop n)

/-- Mirrors Go strings.HasPrefix (byte-wise comparison; ASCII inputs). -/
def strStartsWith (s p : String) : Bool :=
  s.data.take p.data.length == p.data

/-- memcmp-style strict ordering on character lists: the collation SQLite
uses for MAX over a text column (BINARY collation; ASCII inputs). -/
def charsLt : List Char → List Char → Bool
  | _, [] => false
  | [], _ :: _ => true
  | a :: as, b :: bs =>
    a.toNat < b.toNat || (a.toNat == b.toNat && charsLt as bs)

/-- memcmp-style strict ordering on strings. -/
def strLtB (a b : String) : Bool :=
  charsLt a.data b.data

/-- Modelled from the spec: the persistence adapter evaluating
SELECT MAX(name) over a set of rows. SQL MAX over an empty set is NULL,
which the caller fails to scan into a Go string, so the empty case is
surfaced as none. -/
def sqlMaxStr : List String → Option String
  | [] => none
  | s :: rest =>
    match sqlMaxStr rest with
    | none => some s
    | some m => some (if strLtB m s then s else m)

/-- Decimal value of a digit run. -/
def natOfDigits (cs : List Char) : Nat :=
  cs.foldl (fun a c => a * 10 + (c.toNat - 48)) 0

/-- Longest leading digit run, none when there is no leading digit. -/
def leadingDigits (cs : List Char) : Option Nat :=
  let ds := cs.takeWhile Char.isDigit
  if ds.isEmpty then none else some (natOfDigits ds)

/-- Mirrors fmt.Sscanf(s, d-verb, num): skip leading whitespace, accept an
optional sign, then read at least one decimal digit; trailing bytes are
left unconsumed and do not cause an error. -/
def goSscanfInt (s : String) : Option Int :=
  let cs := s.data.dropWhile Char.isWhitespace
  match cs with
  | '-' :: rest => (leadingDigits rest).map (fun n => -(n : Int))
  | '+' :: rest => (leadingDigits rest).map (fun n => (n : Int))
  | _ => (leadingDigits cs).map (fun n => (n : Int))

/-- shared.SnapshotDelimiter. -/
def snapshotDelimiter : String := "/"

/-! Snapshot Namer: nextSnapshot from src/lxd/container_snapshot.go.
The database is abstracted as the list of names of Snapshot-typed rows
(the query filters on type=cTypeSnapshot). The query is
SELECT MAX(name) ... WHERE SUBSTR(name,1,len)=base, so at most one row
reaches the parsing loop: the lexicographically maximal matching name. -/

/-- Shallow embedding of nextSnapshot (src/lxd/container_snapshot.go,
lines 75-105). snapNames are the names of the Snapshot-typed rows in the
containers table. -/
def nextSnapshot (snapNames : List String) (name : String) : Nat :=
  let base := name ++ snapshotDelimiter ++ "snap"
  let len := base.length
  let rows := snapNames.filter (fun s => strTake s len == base)
  match sqlMaxStr rows with
  | none => 0
  | some numstr =>
    if numstr.length ≤ len then 0
    else
      match goSscanfInt (strDrop numstr len) with
      | none => 0
      | some num => if 0 ≤ num then num.toNat + 1 else 0

/-! Snapshot rename: snapshotPost from src/lxd/container_snapshot.go. -/

/-- Outcome of the snapshot rename endpoint: either a synchronous
BadRequest, or an async task whose work unit calls
sc.Rename(containerName + shared.SnapshotDelimiter + newName). -/
inductive RenameResp where
  | badRequest
  | asyncRename (newName : String)
deriving DecidableEq

/-- Shallow embedding of snapshotPost (src/lxd/container_snapshot.go,
lines 219-234). nameField is none when the body fails to decode, some none
when the name key is missing or not a string (raw.GetString error), and
some (some v) when the name field decodes to the string v. -/
def snapshotPost (containerName : String) (nameField : Option (Option String)) : RenameResp :=
  match nameField with
  | none => .badRequest
  | some none => .badRequest
  | some (some v) => .asyncRename (containerName ++ snapshotDelimiter ++ v)

/-! Snapshot creation: the snapshot work unit of containerSnapshotsPost. -/

/-- Error cases of the snapshot work unit, in source order. -/
inductive SnapErr where
  | createFailed
  | mkdirFailed
  | notRunning
  | lxcGetFailed
  | checkpointFailed
  | storageFailed
deriving DecidableEq

/-- Modelled from the spec: outcomes of the external calls made by the
snapshot work unit. createcontainerLXD, sc.Delete and
d.Storage.ContainerSnapshotCreate are not under src/, so the record insert
is modelled as making the row visible and the rollback delete as removing
it again (spec section 4.2, rollback point A). -/
structure SnapFlags where
  createOk : Bool
  mkdirOk : Bool
  running : Bool
  lxcGetOk : Bool
  checkpointOk : Bool
  storageOk : Bool

/-- Shallow embedding of the snapshot closure inside containerSnapshotsPost
(src/lxd/container_snapshot.go, lines 142-184). db is the list of row
names visible in the containers table; the result pairs the table after
the work unit with its error, none meaning success. Every failure after
the insert runs sc.Delete, restoring the original table. -/
def snapshotWork (stateful : Bool) (f : SnapFlags) (db : List String) (fullName : String) :
    List String × Option SnapErr :=
  if !f.createOk then (db, some .createFailed)
  else
    let db1 := fullName :: db
    if stateful then
      if !f.mkdirOk then (db, some .mkdirFailed)
      else if !f.running then (db, some .notRunning)
      else if !f.lxcGetOk then (db, some .lxcGetFailed)
      else if !f.checkpointOk then (db, some .checkpointFailed)
      else if !f.storageOk then (db, some .storageFailed)
      else (db1, none)
    else if !f.storageOk then (db, some .storageFailed)
    else (db1, none)

/-! Theorems for claims C1, C10, C2. -/

/-- Claim C1: the claim states nextSnapshot returns max(K)+1 over all
existing snapK suffixes. The code takes the SQL MAX of the names, a
lexicographic maximum of the strings, and parses only that single row: for
the snapshots snap9 and snap10 of parent c the lexicographic maximum is
c/snap9, so the function returns 10 instead of max(9,10)+1 = 11 - and the
suffix snap10 it returns is already in use. -/
theorem nextSnapshot_lexmax_bug :
    nextSnapshot ["c/snap9", "c/snap10"] "c" = 10 ∧
    nextSnapshot ["c/snap9", "c/snap10"] "c" ≠ Nat.max 9 10 + 1 ∧
    ("c" ++ snapshotDelimiter ++ "snap" ++ "10") ∈ ["c/snap9", "c/snap10"] := by
  refine ⟨by decide, by decide, by decide⟩

/-- Claim C10: snapshotPost composes the new record name as
containerName, delimiter, then the decoded leaf verbatim, with no
validation: the empty leaf and a leaf containing the delimiter are both
passed to Rename unchanged. -/
theorem snapshotPost_no_leaf_validation :
    (∀ (cn v : String),
      snapshotPost cn (some (some v)) = .asyncRename (cn ++ snapshotDelimiter ++ v)) ∧
    snapshotPost "web" (some (some "")) = .asyncRename "web/" ∧
    snapshotPost "web" (some (some "a/b")) = .asyncRename "web/a/b" := by
  refine ⟨fun cn v => rfl, by decide, by decide⟩

/-- Claim C2: the snapshot work unit leaves the new record visible in the
table if and only if every step succeeded; and when the request is
stateful, the insert and state-directory creation succeed but the parent
is not running, it fails with the not-running error and the table is
unchanged. -/
theorem snapshotWork_visible_iff_success (stateful : Bool) (f : SnapFlags)
    (db : List String) (fullName : String) (hdb : fullName ∉ db) :
    (fullName ∈ (snapshotWork stateful f db fullName).1 ↔
      (snapshotWork stateful f db fullName).2 = none) ∧
    (stateful = true → f.createOk = true → f.mkdirOk = true → f.running = false →
      snapshotWork stateful f db fullName = (db, some .notRunning)) := by
  obtain ⟨c, m, r, l, k, s⟩ := f
  cases stateful <;> cases c <;> cases m <;> cases r <;> cases l <;> cases k <;> cases s <;>
    simp_all [snapshotWork]

/-- Witness for C2: a concrete stateful request on a stopped parent with an
empty table fails with the not-running error and leaves the table empty. -/
theorem snapshotWork_visible_iff_success_witness :
    ("web/snap0" ∉ ([] : List String)) ∧
    (("web/snap0" ∈ (snapshotWork true ⟨true, true, false, true, true, true⟩ [] "web/snap0").1 ↔
        (snapshotWork true ⟨true, true, false, true, true, true⟩ [] "web/snap0").2 = none) ∧
      (true = true → true = true → true = true → false = false →
        snapshotWork true ⟨true, true, false, true, true, true⟩ [] "web/snap0" =
          ([], some .notRunning))) :=
  ⟨by decide,
    snapshotWork_visible_iff_success true ⟨true, true, false, true, true, true⟩ [] "web/snap0"
      (by decide)⟩

/-! Bulk shutdown: containersShutdown from src/unnamed/part_000. -/

/-- Events of the shutdown loop: persisting power_state=1 for a container,
dispatching its shutdown goroutine, and executing wg.Wait(). -/
inductive SDEv where
  | persistPower (n : String)
  | dispatch (n : String)
  | joinAll
deriving DecidableEq

/-- Errors surfaced by containersShutdown. -/
inductive SDErr where
  | listErr
  | loadErr
  | dbErr
deriving DecidableEq

/-- Shallow embedding of the loop body of containersShutdown
(src/unnamed/part_000, lines 257-280). For each name: load the container
(failure aborts), and when it is running persist power_state=1 (dbExec
failure aborts) then wg.Add(1) and dispatch the shutdown goroutine; the
iteration ends with wg.Wait() placed inside the loop, run on every
iteration whether or not the container was running. -/
def shutdownLoop (loadOk runningC execOk : String → Bool) :
    List String → List SDEv × Option SDErr
  | [] => ([], none)
  | n :: rest =>
    if !loadOk n then ([], some .loadErr)
    else if runningC n then
      if !execOk n then ([], some .dbErr)
      else
        let r := shutdownLoop loadOk runningC execOk rest
        (.persistPower n :: .dispatch n :: .joinAll :: r.1, r.2)
    else
      let r := shutdownLoop loadOk runningC execOk rest
      (.joinAll :: r.1, r.2)

/-- Shallow embedding of containersShutdown (src/unnamed/part_000, lines
249-283). names is the result of d.ListRegularContainers, listOk its
success. -/
def containersShutdown (listOk : Bool) (names : List String)
    (loadOk runningC execOk : String → Bool) : List SDEv × Option SDErr :=
  if !listOk then ([], some .listErr)
  else shutdownLoop loadOk runningC execOk names

/-- True when an event is wg.Wait(). -/
def isJoin : SDEv → Bool
  | .joinAll => true
  | _ => false

/-- True when an event dispatches a shutdown goroutine. -/
def isDispatch : SDEv → Bool
  | .dispatch _ => true
  | _ => false

/-- The shape the claim requires of the trace: exactly one join point, and
no dispatch after the first join (all dispatches precede the single
join). -/
def singleJoinAfterDispatch (t : List SDEv) : Bool :=
  ((t.filter isJoin).length == 1) &&
    ((t.dropWhile (fun e => !isJoin e)).all (fun e => !isDispatch e))

/-- Claim C5: the claim states the shutdown sequences are all dispatched
first and joined once after the loop. The code runs wg.Wait() inside the
loop: with two running containers the trace joins after the first dispatch
and before the second, so it has two join points and a dispatch after a
join, refuting the single-join-after-dispatch shape. -/
theorem containersShutdown_join_inside_loop :
    containersShutdown true ["a", "b"]
        (fun _ => true) (fun _ => true) (fun _ => true) =
      ([.persistPower "a", .dispatch "a", .joinAll,
        .persistPower "b", .dispatch "b", .joinAll], none) ∧
    singleJoinAfterDispatch
      [.persistPower "a", .dispatch "a", .joinAll,
       .persistPower "b", .dispatch "b", .joinAll] = false := by
  refine ⟨by decide, by decide⟩

/-! Restart on boot: containersRestart from src/unnamed/part_000. -/

/-- Events of containersRestart: the UPDATE clearing every power_state
flag, a failed container load, and an attempted Start with its outcome. -/
inductive RSEv where
  | clearAll
  | loadFail (n : String)
  | startTry (n : String) (ok : Bool)
deriving DecidableEq

/-- Errors surfaced by containersRestart. -/
inductive RSErr where
  | queryErr
  | execErr
  | loadErr (n : String)
deriving DecidableEq

/-- Shallow embedding of the start loop of containersRestart
(src/unnamed/part_000, lines 237-244). Produces the events, the list of
containers whose Start call succeeded (these are left running), and the
surfaced error. A newLxdContainer failure returns its error; the return
value of container.Start() is discarded by the source, so a start failure
neither stops the loop nor produces an error. -/
def restartLoop (loadOk startOk : String → Bool) :
    List String → List RSEv × List String × Option RSErr
  | [] => ([], [], none)
  | n :: rest =>
    if loadOk n then
      let r := restartLoop loadOk startOk rest
      (.startTry n (startOk n) :: r.1,
        (if startOk n then n :: r.2.1 else r.2.1), r.2.2)
    else ([.loadFail n], [], some (.loadErr n))

/-- Shallow embedding of containersRestart (src/unnamed/part_000, lines
221-247). rows is the SELECT result (Regular rows with power_state=1),
queryOk its success, execOk the success of the UPDATE clearing all flags,
flags0 the persisted power_state column keyed by name. Returns the events,
the power_state column after the call, the containers started, and the
error. -/
def containersRestart (queryOk : Bool) (rows : List String) (execOk : Bool)
    (loadOk startOk : String → Bool) (flags0 : List (String × Bool)) :
    List RSEv × List (String × Bool) × List String × Option RSErr :=
  if !queryOk then ([], flags0, [], some .queryErr)
  else if !execOk then ([], flags0, [], some .execErr)
  else
    let flags1 := flags0.map (fun p => (p.1, false))
    let r := restartLoop loadOk startOk rows
    (RSEv.clearAll :: r.1, flags1, r.2.1, r.2.2)

/-- Claim C6 counterexample: the claim states a failure to start a
selected container is surfaced as the overall failure. With one selected
container that loads but whose Start call fails, containersRestart still
returns success (error component none) while recording the failed start
attempt. -/
theorem containersRestart_start_error_ignored :
    containersRestart true ["a"] true (fun _ => true) (fun _ => false)
        [("a", true)] =
      ([.clearAll, .startTry "a" false], [("a", false)], [], none) := by
  decide

/-- The error of the start loop is the first load failure among the rows,
independent of the start outcomes. -/
theorem restartLoop_err (loadOk startOk : String → Bool) (rows : List String) :
    (restartLoop loadOk startOk rows).2.2 =
      match rows.find? (fun n => !loadOk n) with
      | some n => some (.loadErr n)
      | none => none := by
  induction rows with
  | nil => rfl
  | cons n rest ih =>
    by_cases h : loadOk n = true <;> simp [restartLoop, List.find?, h, ih]

/-- Every row before the first load failure whose Start call succeeded is
recorded as started by the loop. -/
theorem restartLoop_started (loadOk startOk : String → Bool) (rows : List String) :
    ∀ n, n ∈ rows.takeWhile loadOk → startOk n = true →
      n ∈ (restartLoop loadOk startOk rows).2.1 := by
  induction rows with
  | nil => intro n h; simp [List.takeWhile] at h
  | cons m rest ih =>
    intro n hmem hstart
    by_cases hm : loadOk m = true
    · rw [List.takeWhile_cons_of_pos hm] at hmem
      rcases List.mem_cons.mp hmem with heq | htail
      · subst heq
        simp [restartLoop, hm, hstart]
      · have := ih n htail hstart
        by_cases hs : startOk m = true <;>
          simp [restartLoop, hm, hs, List.mem_cons, this]
    · rw [List.takeWhile_cons_of_neg (by simpa using hm)] at hmem
      simp at hmem

/-- Claim C6 amended: when the query and the flag-clearing UPDATE succeed,
all persisted power_state flags are cleared and the clearing event is the
first event, so it precedes every start attempt; the overall error is the
first failure to load a selected container, independent of the start
outcomes (a Start failure is ignored); and every container started before
the first load failure remains running. -/
theorem containersRestart_amended (rows : List String)
    (loadOk startOk : String → Bool) (flags0 : List (String × Bool)) :
    (containersRestart true rows true loadOk startOk flags0).2.1 =
      flags0.map (fun p => (p.1, false)) ∧
    (containersRestart true rows true loadOk startOk flags0).1.head? =
      some .clearAll ∧
    (containersRestart true rows true loadOk startOk flags0).2.2.2 =
      (match rows.find? (fun n => !loadOk n) with
       | some n => some (.loadErr n)
       | none => none) ∧
    (∀ n, n ∈ rows.takeWhile loadOk → startOk n = true →
      n ∈ (containersRestart true rows true loadOk startOk flags0).2.2.1) := by
  refine ⟨rfl, rfl, ?_, ?_⟩
  · simpa [containersRestart] using restartLoop_err loadOk startOk rows
  · intro n hmem hstart
    simpa [containersRestart] using restartLoop_started loadOk startOk rows n hmem hstart

/-- Witness for the amended C6: with rows a then b where b fails to load
and the Start of a succeeds, a is recorded as still running by the
call. -/
theorem containersRestart_amended_witness :
    "a" ∈ (containersRestart true ["a", "b"] true
        (fun n => n == "a") (fun _ => true) [("a", true)]).2.2.1 :=
  (containersRestart_amended ["a", "b"] (fun n => n == "a") (fun _ => true)
      [("a", true)]).2.2.2 "a" (by decide) (by decide)

/-! Cascade delete: containerDeleteSnapshots from src/unnamed/part_000. -/

/-- Events of the cascade: btrfsDeleteSubvol on a path, os.RemoveAll on a
path (each carrying the outcome of the call, which the source discards),
and an attempted DELETE of a row id. -/
inductive DelEv where
  | subvolDel (p : String) (ok : Bool)
  | removeTree (p : String) (ok : Bool)
  | rowDel (id : Nat)
deriving DecidableEq

/-- Result of filesystemDetect on the container directory: a detected
kind, a does-not-exist error (tolerated by the source), or another
error (fatal). -/
inductive DetectRes where
  | found (fs : String)
  | errMissing
  | errOther
deriving DecidableEq

/-- Errors surfaced by containerDeleteSnapshots. -/
inductive DelErr where
  | queryErr
  | detectErr
  | dbErr (id : Nat)
deriving DecidableEq

/-- shared.VarPath("snapshots", s). -/
def snapPath (s : String) : String :=
  "/var/lib/lxd/snapshots/" ++ s

/-- The Snapshot rows whose name starts with the parent name plus the
delimiter: the WHERE SUBSTR(name,1,len)=prefix filter of the query. -/
def selectedRows (cname : String) (rows : List (String × Nat)) :
    List (String × Nat) :=
  let pfx := cname ++ snapshotDelimiter
  rows.filter (fun r => strTake r.1 pfx.length == pfx)

/-- Shallow embedding of the second loop of containerDeleteSnapshots
(src/unnamed/part_000, lines 318-323): delete each collected id, stopping
at the first dbExec failure, whose error is returned. -/
def deleteRows (rowDelOk : Nat → Bool) : List Nat → List DelEv × Option DelErr
  | [] => ([], none)
  | id :: rest =>
    if rowDelOk id then
      let r := deleteRows rowDelOk rest
      (.rowDel id :: r.1, r.2)
    else ([.rowDel id], some (.dbErr id))

/-- Shallow embedding of containerDeleteSnapshots (src/unnamed/part_000,
lines 285-326). rows are the Snapshot-typed rows (name, id) of the
containers table; queryOk is the success of the SELECT; subvolOk and
removeOk give the outcomes of btrfsDeleteSubvol and os.RemoveAll, both of
which the source ignores; rowDelOk gives the outcome of each row DELETE.
The filesystem loop runs btrfsDeleteSubvol only when the detected backing
filesystem is btrfs and then always runs os.RemoveAll; the collected ids
are deleted afterwards. -/
def containerDeleteSnapshots (cname : String) (queryOk : Bool)
    (rows : List (String × Nat)) (detect : DetectRes)
    (subvolOk removeOk : String → Bool) (rowDelOk : Nat → Bool) :
    List DelEv × Option DelErr :=
  if !queryOk then ([], some .queryErr)
  else if detect = DetectRes.errOther then ([], some .detectErr)
  else
    let backingFs := match detect with
      | .found fs => fs
      | _ => ""
    let sel := selectedRows cname rows
    let fsEvents := sel.flatMap (fun r =>
      let cdir := snapPath r.1
      (if backingFs = "btrfs" then [DelEv.subvolDel cdir (subvolOk cdir)] else []) ++
        [DelEv.removeTree cdir (removeOk cdir)])
    let r := deleteRows rowDelOk (sel.map (fun x => x.2))
    (fsEvents ++ r.1, r.2)

/-- The first DELETE failure among the collected ids, none when all
succeed. -/
def firstDbErr (rowDelOk : Nat → Bool) : List Nat → Option DelErr
  | [] => none
  | id :: rest => if rowDelOk id then firstDbErr rowDelOk rest else some (.dbErr id)

/-- The error of the row-deletion loop is the first DELETE failure. -/
theorem deleteRows_err (rowDelOk : Nat → Bool) (ids : List Nat) :
    (deleteRows rowDelOk ids).2 = firstDbErr rowDelOk ids := by
  induction ids with
  | nil => rfl
  | cons id rest ih =>
    by_cases h : rowDelOk id = true <;> simp [deleteRows, firstDbErr, h, ih]

/-- Every event of the row-deletion loop is a row DELETE. -/
theorem deleteRows_events (rowDelOk : Nat → Bool) (ids : List Nat) :
    ∀ e ∈ (deleteRows rowDelOk ids).1, ∃ id, e = DelEv.rowDel id := by
  induction ids with
  | nil => intro e h; simp [deleteRows] at h
  | cons id rest ih =>
    intro e h
    by_cases hid : rowDelOk id = true
    · simp only [deleteRows, hid, if_pos, List.mem_cons] at h
      rcases h with h | h
      · exact ⟨id, h⟩
      · exact ih e h
    · simp [deleteRows, hid] at h
      exact ⟨id, h⟩

/-- Claim C9: after the filesystem phase begins, only persistence failures
make the cascade fail. The returned error equals the first row-DELETE
failure (or the earlier query / detection error) and does not depend on
the outcomes of the subvolume deletes or the recursive removals, even
though those outcomes appear in the trace. -/
theorem containerDeleteSnapshots_ignores_fs_failures (cname : String)
    (queryOk : Bool) (rows : List (String × Nat)) (detect : DetectRes)
    (subvolOk removeOk : String → Bool) (rowDelOk : Nat → Bool) :
    (containerDeleteSnapshots cname queryOk rows detect subvolOk removeOk rowDelOk).2 =
      if !queryOk then some .queryErr
      else if detect = DetectRes.errOther then some .detectErr
      else firstDbErr rowDelOk ((selectedRows cname rows).map (fun x => x.2)) := by
  by_cases hq : queryOk = true
  · by_cases hd : detect = DetectRes.errOther <;>
      simp [containerDeleteSnapshots, hq, hd, deleteRows_err]
  · simp [containerDeleteSnapshots, hq]

/-- The event trace of a cascade whose query succeeds and whose backing
filesystem detection returns fs. -/
def cascadeTrace (cname : String) (rows : List (String × Nat)) (fs : String)
    (subvolOk removeOk : String → Bool) (rowDelOk : Nat → Bool) : List DelEv :=
  (containerDeleteSnapshots cname true rows (.found fs) subvolOk removeOk rowDelOk).1

/-- The cascade trace is the filesystem phase over the selected snapshots
followed by the row-deletion phase. -/
theorem cascadeTrace_eq (cname : String) (rows : List (String × Nat))
    (fs : String) (subvolOk removeOk : String → Bool) (rowDelOk : Nat → Bool) :
    cascadeTrace cname rows fs subvolOk removeOk rowDelOk =
      (selectedRows cname rows).flatMap (fun r =>
        (if fs = "btrfs"
          then [DelEv.subvolDel (snapPath r.1) (subvolOk (snapPath r.1))]
          else []) ++
        [DelEv.removeTree (snapPath r.1) (removeOk (snapPath r.1))]) ++
      (deleteRows rowDelOk ((selectedRows cname rows).map (fun x => x.2))).1 := by
  simp [cascadeTrace, containerDeleteSnapshots]

/-- Claim C7 counterexample: the claim states each snapshot location is
removed by exactly one of two exclusive branches. On a btrfs backing
filesystem the cascade runs the subvolume delete and then also the
generic recursive removal on the same snapshot directory: both removal
events appear in the trace. -/
theorem containerDeleteSnapshots_both_removals :
    containerDeleteSnapshots "c" true [("c/snap0", 5)] (.found "btrfs")
        (fun _ => true) (fun _ => true) (fun _ => true) =
      ([.subvolDel "/var/lib/lxd/snapshots/c/snap0" true,
        .removeTree "/var/lib/lxd/snapshots/c/snap0" true,
        .rowDel 5], none) ∧
    DelEv.subvolDel "/var/lib/lxd/snapshots/c/snap0" true ∈
      (containerDeleteSnapshots "c" true [("c/snap0", 5)] (.found "btrfs")
        (fun _ => true) (fun _ => true) (fun _ => true)).1 ∧
    DelEv.removeTree "/var/lib/lxd/snapshots/c/snap0" true ∈
      (containerDeleteSnapshots "c" true [("c/snap0", 5)] (.found "btrfs")
        (fun _ => true) (fun _ => true) (fun _ => true)).1 := by
  refine ⟨by decide, by decide, by decide⟩

/-- Claim C7 amended: every selected snapshot location gets the generic
recursive removal; on a btrfs backing filesystem it additionally gets the
subvolume delete first, and on any other backing filesystem no subvolume
delete occurs; and the trace splits into a filesystem phase containing no
row deletion followed by a phase of only row deletions, so every
filesystem removal is attempted before any database row is deleted. -/
theorem containerDeleteSnapshots_branch_and_order (cname : String)
    (rows : List (String × Nat)) (fs : String)
    (subvolOk removeOk : String → Bool) (rowDelOk : Nat → Bool) :
    (∀ r ∈ selectedRows cname rows,
      DelEv.removeTree (snapPath r.1) (removeOk (snapPath r.1)) ∈
        cascadeTrace cname rows fs subvolOk removeOk rowDelOk ∧
      (fs = "btrfs" →
        DelEv.subvolDel (snapPath r.1) (subvolOk (snapPath r.1)) ∈
          cascadeTrace cname rows fs subvolOk removeOk rowDelOk)) ∧
    (fs ≠ "btrfs" → ∀ p b,
      DelEv.subvolDel p b ∉ cascadeTrace cname rows fs subvolOk removeOk rowDelOk) ∧
    (∃ fsEvs dbEvs,
      cascadeTrace cname rows fs subvolOk removeOk rowDelOk = fsEvs ++ dbEvs ∧
      (∀ e ∈ fsEvs, ∀ id, e ≠ DelEv.rowDel id) ∧
      (∀ e ∈ dbEvs, ∃ id, e = DelEv.rowDel id)) := by
  refine ⟨?_, ?_, ?_⟩
  · intro r hr
    rw [cascadeTrace_eq]
    constructor
    · exact List.mem_append_left _
        (List.mem_flatMap.mpr
          ⟨r, hr, by by_cases hb : fs = "btrfs" <;> simp [hb]⟩)
    · intro hb
      exact List.mem_append_left _ (List.mem_flatMap.mpr ⟨r, hr, by simp [hb]⟩)
  · intro hb p b hmem
    rw [cascadeTrace_eq] at hmem
    rcases List.mem_append.mp hmem with h | h
    · rcases List.mem_flatMap.mp h with ⟨r, hr, hin⟩
      simp [hb] at hin
    · obtain ⟨id, hid⟩ := deleteRows_events rowDelOk _ _ h
      exact absurd hid (by simp)
  · refine ⟨_, _, cascadeTrace_eq cname rows fs subvolOk removeOk rowDelOk,
      ?_, deleteRows_events rowDelOk _⟩
    intro e he id
    rcases List.mem_flatMap.mp he with ⟨r, hr, hin⟩
    by_cases hb : fs = "btrfs"
    · simp [hb] at hin
      rcases hin with h | h <;> simp [h]
    · simp [hb] at hin
      simp [hin]

/-- Witness for the amended C7: with one snapshot of c on btrfs, the trace
contains both the generic removal and the subvolume delete of its
location. -/
theorem containerDeleteSnapshots_branch_and_order_witness :
    DelEv.removeTree (snapPath "c/snap0") true ∈
      cascadeTrace "c" [("c/snap0", 5)] "btrfs"
        (fun _ => true) (fun _ => true) (fun _ => true) ∧
    DelEv.subvolDel (snapPath "c/snap0") true ∈
      cascadeTrace "c" [("c/snap0", 5)] "btrfs"
        (fun _ => true) (fun _ => true) (fun _ => true) :=
  have h := (containerDeleteSnapshots_branch_and_order "c" [("c/snap0", 5)]
      "btrfs" (fun _ => true) (fun _ => true) (fun _ => true)).1
    ("c/snap0", 5) (by decide)
  ⟨h.1, h.2 rfl⟩

/-! Archive Exporter: tarStoreFile and ExportToTar from src/unnamed/part_000. -/

/-- Kind of a filesystem entry as seen by os.FileInfo. -/
inductive FKind where
  | reg
  | dir
  | symlink
  | other
deriving DecidableEq

/-- Tar header type flag. The link constructor is tar.TypeLink, used for
the later occurrences of a hardlinked inode. -/
inductive TFlag where
  | reg
  | dir
  | symlink
  | link
  | other
deriving DecidableEq

/-- The type flag tar.FileInfoHeader derives from the file mode. -/
def flagOf : FKind → TFlag
  | .reg => .reg
  | .dir => .dir
  | .symlink => .symlink
  | .other => .other

/-- One on-disk entry handed to tarStoreFile by filepath.Walk: rel is its
path relative to the container directory (the walk visits cDir/rel), the
numeric fields come from os.FileInfo and shared.GetFileStat, and the Ok
flags give the outcomes of the system calls the function makes on the
entry. -/
structure FileEntry where
  rel : String
  kind : FKind
  size : Int
  target : String
  readlinkOk : Bool
  uid : Int
  gid : Int
  major : Int
  minor : Int
  ino : Nat
  nlink : Nat
  statOk : Bool
  writeOk : Bool
  openOk : Bool
  copyOk : Bool

/-- The fields of the tar header the claims are about. -/
structure TarHdr where
  name : String
  size : Int
  uid : Int
  gid : Int
  typeflag : TFlag
  linkname : String
  devmajor : Int
  devminor : Int
deriving DecidableEq

/-- Error cases of tarStoreFile, in source order. -/
inductive TarErr where
  | readlinkErr
  | statErr
  | writeErr
  | openErr
  | copyErr
deriving DecidableEq

/-- Result of tarStoreFile on one entry: an error, a silent skip (the
early return nil of the uid/gid branch), or a written header. -/
inductive TarRes where
  | err (e : TarErr)
  | skip
  | written (h : TarHdr)
deriving DecidableEq

/-- Association lookup in the inode index (Go map read linkmap[ino]). -/
def lookupIno : List (Nat × String) → Nat → Option String
  | [], _ => none
  | (k, v) :: rest, ino => if k = ino then some v else lookupIno rest ino

/-- Shallow embedding of lxdContainer.tarStoreFile (src/unnamed/part_000,
lines 362-430). privileged is c.IsPrivileged(), shiftFromNs is
c.idmapset.ShiftFromNs, linkmap the inode index shared across the export,
and cDir the container directory: the walk hands in path = cDir/rel and
the header name is path[offset:] with offset = len(cDir)+1. Returns the
result for this entry together with the updated inode index. -/
def tarStoreFile (privileged : Bool) (shiftFromNs : Int → Int → Int × Int)
    (linkmap : List (Nat × String)) (cDir : String) (e : FileEntry) :
    TarRes × List (Nat × String) :=
  if e.kind = FKind.symlink ∧ e.readlinkOk = false then (.err .readlinkErr, linkmap)
  else
    let path := cDir ++ "/" ++ e.rel
    let name := strDrop path (cDir.length + 1)
    let size0 : Int := if e.kind = FKind.dir ∨ e.kind = FKind.symlink then 0 else e.size
    if e.statOk = false then (.err .statErr, linkmap)
    else
      let inRootfs := !privileged && strStartsWith name "/rootfs"
      let uid1 := if inRootfs then (shiftFromNs e.uid e.gid).1 else e.uid
      let gid1 := if inRootfs then (shiftFromNs e.uid e.gid).2 else e.gid
      if inRootfs && (uid1 == -1 || gid1 == -1) then (.skip, linkmap)
      else
        let dmaj : Int := if e.major ≠ -1 then e.major else 0
        let dmin : Int := if e.major ≠ -1 then e.minor else 0
        let hard := e.kind = FKind.reg ∧ e.nlink > 1
        let found := lookupIno linkmap e.ino
        let tflag := if hard then
            match found with
            | some _ => TFlag.link
            | none => flagOf e.kind
          else flagOf e.kind
        let lname := if hard then
            match found with
            | some fp => fp
            | none => ""
          else ""
        let size1 := if hard then
            match found with
            | some _ => (0 : Int)
            | none => size0
          else size0
        let lm1 := if hard then
            match found with
            | some _ => linkmap
            | none => (e.ino, name) :: linkmap
          else linkmap
        let hdr : TarHdr :=
          { name := name, size := size1, uid := uid1, gid := gid1,
            typeflag := tflag, linkname := lname,
            devmajor := dmaj, devminor := dmin }
        if e.writeOk = false then (.err .writeErr, lm1)
        else if tflag = TFlag.reg then
          if e.openOk = false then (.err .openErr, lm1)
          else if e.copyOk = false then (.err .copyErr, lm1)
          else (.written hdr, lm1)
        else (.written hdr, lm1)

/-- Errors surfaced by ExportToTar. -/
inductive ExpErr where
  | runningAsImage
  | mdStatErr
  | mdStoreErr (te : TarErr)
  | closeErr
deriving DecidableEq

/-- The input of one export: the walk results of the on-disk tree plus the
outcomes of the calls ExportToTar itself makes. -/
structure ExportIn where
  running : Bool
  metadataPresent : Bool
  metadataStatOk : Bool
  metadataEntry : FileEntry
  rootfsEntries : List FileEntry
  templatesPresent : Bool
  templatesEntries : List FileEntry
  closeOk : Bool

/-- Shallow embedding of filepath.Walk(root, writeToTar): entries are
visited in order, a tarStoreFile error aborts the remaining walk and is
returned as the walk result, a skip continues. Returns the headers
written, the final inode index and the walk error. -/
def walkTar (priv : Bool) (sh : Int → Int → Int × Int) (cDir : String)
    (lm : List (Nat × String)) :
    List FileEntry → List TarHdr × List (Nat × String) × Option TarErr
  | [] => ([], lm, none)
  | e :: rest =>
    match tarStoreFile priv sh lm cDir e with
    | (.err te, lm1) => ([], lm1, some te)
    | (.skip, lm1) => walkTar priv sh cDir lm1 rest
    | (.written h, lm1) =>
      let r := walkTar priv sh cDir lm1 rest
      (h :: r.1, r.2.1, r.2.2)

/-- The tail of ExportToTar after the metadata.yaml step
(src/unnamed/part_000, lines 476-482): walk rootfs, then walk templates if
present, then tw.Close(). The walk results r1 and r2 carry the walk
errors in their last component, and those errors are discarded here: the
source calls filepath.Walk without using its return value. -/
def exportTrees (priv : Bool) (sh : Int → Int → Int × Int) (cDir : String)
    (lm : List (Nat × String)) (hs0 : List TarHdr) (inp : ExportIn) :
    List TarHdr × Option ExpErr :=
  let r1 := walkTar priv sh cDir lm inp.rootfsEntries
  let r2 := if inp.templatesPresent then walkTar priv sh cDir r1.2.1 inp.templatesEntries
            else ([], r1.2.1, none)
  (hs0 ++ r1.1 ++ r2.1, if inp.closeOk then none else some .closeErr)

/-- Shallow embedding of lxdContainer.ExportToTar (src/unnamed/part_000,
lines 438-483): refuse to export a running container as a named snapshot,
archive metadata.yaml when present (a stat or store failure here aborts
with an error), then the rootfs and templates trees via exportTrees. -/
def ExportToTar (priv : Bool) (sh : Int → Int → Int × Int) (cDir : String)
    (snap : String) (inp : ExportIn) : List TarHdr × Option ExpErr :=
  if snap ≠ "" ∧ inp.running = true then ([], some .runningAsImage)
  else if inp.metadataPresent then
    if inp.metadataStatOk = false then ([], some .mdStatErr)
    else
      match tarStoreFile priv sh [] cDir inp.metadataEntry with
      | (.err te, _) => ([], some (.mdStoreErr te))
      | (.skip, lm1) => exportTrees priv sh cDir lm1 [] inp
      | (.written h, lm1) => exportTrees priv sh cDir lm1 [h] inp
  else exportTrees priv sh cDir [] [] inp

/-- Dropping the container-directory offset from a walked path yields the
relative path: header names therefore never carry a leading slash. -/
theorem strDrop_append (a b : String) :
    strDrop (a ++ "/" ++ b) (a.length + 1) = b := by
  obtain ⟨la⟩ := a
  obtain ⟨lb⟩ := b
  show String.mk (((la ++ ['/']) ++ lb).drop (la.length + 1)) = String.mk lb
  rw [List.append_assoc]
  congr 1
  induction la with
  | nil => rfl
  | cons c cs ih => simp [ih]

/-- A regular file under rootfs of an unprivileged container whose ids the
ownership map cannot resolve. -/
def entryRootA : FileEntry :=
  { rel := "rootfs/a", kind := .reg, size := 5, target := "", readlinkOk := true,
    uid := 1000, gid := 1000, major := -1, minor := -1, ino := 7, nlink := 1,
    statOk := true, writeOk := true, openOk := true, copyOk := true }

/-- Claim C3: the claim states entries under rootfs of an unprivileged
container are remapped through the ownership map and skipped when the map
cannot resolve them. The header name is the walked path with the
container-directory offset stripped, so it reads rootfs/a with no leading
slash, while the guard compares it against the literal /rootfs: the guard
is never true, so even with a map that resolves nothing the entry is
written with its raw in-container ids instead of being remapped or
skipped. -/
theorem tarStoreFile_never_remaps :
    tarStoreFile false (fun _ _ => (-1, -1)) [] "/var/lib/lxd/containers/web"
        entryRootA =
      (.written { name := "rootfs/a", size := 5, uid := 1000, gid := 1000,
                  typeflag := .reg, linkname := "", devmajor := 0, devminor := 0 },
        []) ∧
    strStartsWith "rootfs/a" "/rootfs" = false := by
  refine ⟨by decide, by decide⟩

/-- A rootfs entry that archives cleanly. -/
def entryRoot1 : FileEntry :=
  { rel := "rootfs/a", kind := .reg, size := 1, target := "", readlinkOk := true,
    uid := 0, gid := 0, major := -1, minor := -1, ino := 1, nlink := 1,
    statOk := true, writeOk := true, openOk := true, copyOk := true }

/-- A rootfs entry whose stat call fails. -/
def entryRootBad : FileEntry :=
  { entryRoot1 with rel := "rootfs/b", ino := 2, statOk := false }

/-- A rootfs entry after the failing one, never reached by the walk. -/
def entryRoot2 : FileEntry :=
  { entryRoot1 with rel := "rootfs/c", ino := 3 }

/-- An export whose rootfs walk fails on its second entry. -/
def exportInBad : ExportIn :=
  { running := false, metadataPresent := false, metadataStatOk := true,
    metadataEntry := entryRoot1,
    rootfsEntries := [entryRoot1, entryRootBad, entryRoot2],
    templatesPresent := false, templatesEntries := [], closeOk := true }

/-- Claim C4: the claim states a stat or I/O failure on any entry aborts
the whole export with an error. The rootfs walk here fails on its second
entry with a stat error and drops the third entry, yet ExportToTar
returns the partial archive holding only the first header together with a
nil error, because the source discards the return value of
filepath.Walk. -/
theorem ExportToTar_ignores_walk_error :
    ExportToTar true (fun u g => (u, g)) "/c" "" exportInBad =
      ([{ name := "rootfs/a", size := 1, uid := 0, gid := 0, typeflag := .reg,
          linkname := "", devmajor := 0, devminor := 0 }], none) ∧
    (walkTar true (fun u g => (u, g)) "/c" [] exportInBad.rootfsEntries).2.2 =
      some .statErr := by
  refine ⟨by decide, by decide⟩

/-- Claim C8: for an entry whose system calls succeed and whose relative
path does not start with /rootfs (true of every walked path, which is
relative to the container directory): a directory or symlink is written
with size zero; a regular entry with hardlink count above one whose inode
is already indexed is written as a hardlink reference to the first
occurrence path with size zero and leaves the index unchanged; and when
its inode is not yet indexed it is written as a regular entry with its
own size and the index gains its inode and archived path. -/
theorem tarStoreFile_dedup (priv : Bool) (sh : Int → Int → Int × Int)
    (lm : List (Nat × String)) (cDir : String) (e : FileEntry)
    (hrl : e.readlinkOk = true) (hst : e.statOk = true) (hwr : e.writeOk = true)
    (hop : e.openOk = true) (hcp : e.copyOk = true)
    (hrel : strStartsWith e.rel "/rootfs" = false) :
    ((e.kind = FKind.dir ∨ e.kind = FKind.symlink) →
      ∃ h, tarStoreFile priv sh lm cDir e = (.written h, lm) ∧ h.size = 0) ∧
    (e.kind = FKind.reg → e.nlink > 1 →
      (∀ fp, lookupIno lm e.ino = some fp →
        ∃ h, tarStoreFile priv sh lm cDir e = (.written h, lm) ∧
          h.typeflag = TFlag.link ∧ h.linkname = fp ∧ h.size = 0) ∧
      (lookupIno lm e.ino = none →
        ∃ h, tarStoreFile priv sh lm cDir e = (.written h, (e.ino, e.rel) :: lm) ∧
          h.typeflag = TFlag.reg ∧ h.size = e.size ∧ h.name = e.rel)) := by
  have hname : strDrop (cDir ++ "/" ++ e.rel) (cDir.length + 1) = e.rel :=
    strDrop_append cDir e.rel
  constructor
  · intro hk
    rcases hk with hk | hk
    · refine ⟨{ name := e.rel, size := 0, uid := e.uid, gid := e.gid,
                typeflag := TFlag.dir, linkname := "",
                devmajor := if e.major ≠ -1 then e.major else 0,
                devminor := if e.major ≠ -1 then e.minor else 0 }, ?_, rfl⟩
      simp [tarStoreFile, hname, hrl, hst, hwr, hop, hcp, hrel, hk, flagOf]
    · refine ⟨{ name := e.rel, size := 0, uid := e.uid, gid := e.gid,
                typeflag := TFlag.symlink, linkname := "",
                devmajor := if e.major ≠ -1 then e.major else 0,
                devminor := if e.major ≠ -1 then e.minor else 0 }, ?_, rfl⟩
      simp [tarStoreFile, hname, hrl, hst, hwr, hop, hcp, hrel, hk, flagOf]
  · intro hk hnl
    constructor
    · intro fp hlk
      refine ⟨{ name := e.rel, size := 0, uid := e.uid, gid := e.gid,
                typeflag := TFlag.link, linkname := fp,
                devmajor := if e.major ≠ -1 then e.major else 0,
                devminor := if e.major ≠ -1 then e.minor else 0 }, ?_, rfl, rfl, rfl⟩
      simp [tarStoreFile, hname, hrl, hst, hwr, hop, hcp, hrel, hk, hnl, hlk]
    · intro hlk
      refine ⟨{ name := e.rel, size := e.size, uid := e.uid, gid := e.gid,
                typeflag := TFlag.reg, linkname := "",
                devmajor := if e.major ≠ -1 then e.major else 0,
                devminor := if e.major ≠ -1 then e.minor else 0 }, ?_, rfl, rfl, rfl⟩
      simp [tarStoreFile, hname, hrl, hst, hwr, hop, hcp, hrel, hk, hnl, hlk,
        flagOf]

/-- A second hardlink occurrence of inode 7. -/
def entryHard : FileEntry :=
  { rel := "rootfs/b", kind := .reg, size := 4, target := "", readlinkOk := true,
    uid := 0, gid := 0, major := -1, minor := -1, ino := 7, nlink := 2,
    statOk := true, writeOk := true, openOk := true, copyOk := true }

/-- Witness for C8: with inode 7 already indexed at rootfs/a, the second
occurrence is written as a hardlink reference to rootfs/a with size
zero. -/
theorem tarStoreFile_dedup_witness :
    ∃ h, tarStoreFile false (fun _ _ => (-1, -1)) [(7, "rootfs/a")] "/c"
        entryHard = (.written h, [(7, "rootfs/a")]) ∧
      h.typeflag = TFlag.link ∧ h.linkname = "rootfs/a" ∧ h.size = 0 :=
  ((tarStoreFile_dedup false (fun _ _ => (-1, -1)) [(7, "rootfs/a")] "/c"
      entryHard rfl rfl rfl rfl rfl (by decide)).2 rfl (by decide)).1
    "rootfs/a" rfl
